import Mathlib

/-!
Verification development for the shape-geometry engine and its asynchronous
dispatch layer (worker manager in `src/unnamed/part_004`, worker handler in
`src/src/utils/workers/math.worker.ts`).

The curve generator itself (`utils/math`: `getSuperellipsePath`,
`getPerCornerSuperellipsePath`) is not part of the repository snapshot; only its
callers are.  It is modelled from the specification, with the transcendental
numeric kernel (power, cosine, sine over IEEE floats) abstracted as a parameter
`NumKernel` and scalars idealized as exact rationals.

The dispatch layer is embedded as an explicit state machine: the module-level
mutable state of the manager (`requestIdCounter`, `pendingRequests`, `worker`)
together with the per-request promise state, the armed timeouts, the worker's
message queue and its outgoing response queue.  Each JavaScript event-loop turn
(a call to one of the public entry points, the worker processing a message, the
manager's `onmessage` / `onerror` handlers running, a timeout callback firing,
or `terminateWorker`) is one atomic `Event`; the environment's choices (worker
construction succeeding or throwing, `postMessage` throwing, generation inside
the worker throwing) are data on the event.
-/

namespace Tumsvd

/-- Per-corner curvature exponents (`src/types/layers`, used by the worker
manager and by `math.worker.ts`). -/
structure CornerExponents where
  topLeft : ℚ
  topRight : ℚ
  bottomRight : ℚ
  bottomLeft : ℚ
deriving DecidableEq

/-- Modelled from the spec: the repository's math module is not under `src/`.
The numeric kernel — `pow`, `cos`, `sin` over IEEE doubles — is abstracted as a
parameter; `cos`/`sin` take the sample position as a fraction of a full turn.
Everything structural (clamping, sampling, quadrant assembly, serialization)
follows the spec's words and is concrete. -/
structure NumKernel where
  pow : ℚ → ℚ → ℚ
  cos : ℚ → ℚ
  sin : ℚ → ℚ

/-- Modelled from the spec: invalid exponents are "clamped to a safe minimum,
not passed to `pow`"; the spec does not fix the minimum's value. -/
def MIN_EXPONENT : ℚ := 1 / 100

/-- Modelled from the spec: "a minimum of several dozen sample points per
quadrant". -/
def SAMPLES_PER_QUADRANT : Nat := 32

/-- Total number of boundary samples over the four quadrants. -/
def SAMPLE_COUNT : Nat := 4 * SAMPLES_PER_QUADRANT

/-- Modelled from the spec: exponents at or below zero are clamped to the safe
minimum rather than being passed to `pow`. -/
def clampExp (e : ℚ) : ℚ := max e MIN_EXPONENT

/-- Modelled from the spec: "normalizes invalid/negative dimensions to
zero-area output". -/
def clampDim (d : ℚ) : ℚ := max d 0

/-- Sign factor restoring the quadrant after the absolute value is raised to
the power `2/n` (the superellipse boundary `|2x/w|^n + |2y/h|^n = 1` solved per
quadrant). -/
def sgn (q : ℚ) : ℚ := if 0 < q then 1 else if q < 0 then -1 else 0

/-- A sampled boundary point. -/
structure Point where
  x : ℚ
  y : ℚ
deriving DecidableEq

/-- Modelled from the spec: one boundary sample of the superellipse
`|2x/w|^n + |2y/h|^n = 1` at turn fraction `t`, solved per quadrant as
`x = (w/2) * sgn(cos t) * |cos t|^(2/n)` and likewise for `y`. -/
def samplePoint (k : NumKernel) (w h n t : ℚ) : Point :=
  let c := k.cos t
  let s := k.sin t
  ⟨w / 2 * sgn c * k.pow |c| (2 / n), h / 2 * sgn s * k.pow |s| (2 / n)⟩

/-- Modelled from the spec: the symmetric generator samples the boundary at a
fixed angular resolution after clamping the dimensions and the exponent. -/
def superellipsePoints (k : NumKernel) (w h e : ℚ) : List Point :=
  (List.range SAMPLE_COUNT).map fun i =>
    samplePoint k (clampDim w) (clampDim h) (clampExp e) ((i : ℚ) / (SAMPLE_COUNT : ℚ))

/-- Serialization of one point into the path string. -/
def renderPoint (p : Point) : String := toString p.x ++ " " ++ toString p.y

/-- Modelled from the spec: the sampled contour is emitted as a single path
string that starts with a move-to and is explicitly closed. -/
def serializeClosed (ps : List Point) : String :=
  "M " ++ String.intercalate " L " (ps.map renderPoint) ++ " Z"

/-- Modelled from the spec: `getSuperellipsePath(width, height, exp)`, the
symmetric generator of `utils/math` (absent from `src/`; both the worker and
the synchronous fallback of the manager import it). -/
def getSuperellipsePath (k : NumKernel) (w h e : ℚ) : String :=
  serializeClosed (superellipsePoints k w h e)

/-- Modelled from the spec: in asymmetric mode each quadrant is generated with
its own corner's exponent. -/
def cornerExponentAt (c : CornerExponents) (i : Nat) : ℚ :=
  if i < SAMPLES_PER_QUADRANT then c.topRight
  else if i < 2 * SAMPLES_PER_QUADRANT then c.bottomRight
  else if i < 3 * SAMPLES_PER_QUADRANT then c.bottomLeft
  else c.topLeft

/-- Modelled from the spec: the four per-corner partial contours stitched into
one closed sample list. -/
def perCornerPoints (k : NumKernel) (w h : ℚ) (c : CornerExponents) : List Point :=
  (List.range SAMPLE_COUNT).map fun i =>
    samplePoint k (clampDim w) (clampDim h) (clampExp (cornerExponentAt c i))
      ((i : ℚ) / (SAMPLE_COUNT : ℚ))

/-- Modelled from the spec: `getPerCornerSuperellipsePath(width, height,
corners)` "falls back to the symmetric algorithm when all four corner exponents
are equal, to guarantee pixel-identical output". -/
def getPerCornerSuperellipsePath (k : NumKernel) (w h : ℚ) (c : CornerExponents) : String :=
  if c.topLeft = c.topRight ∧ c.topRight = c.bottomRight ∧ c.bottomRight = c.bottomLeft then
    getSuperellipsePath k w h c.topLeft
  else
    serializeClosed (perCornerPoints k w h c)

/-- `generatePathSync` of the worker manager: the synchronous fallback simply
calls `getSuperellipsePath` of `utils/math` on the caller's thread. -/
def generatePathSync (k : NumKernel) (w h e : ℚ) : String :=
  getSuperellipsePath k w h e

/-- `generatePerCornerPathSync` of the worker manager. -/
def generatePerCornerPathSync (k : NumKernel) (w h : ℚ) (c : CornerExponents) : String :=
  getPerCornerSuperellipsePath k w h c

/-- The parameters a dispatched request carries: the payload of
`generatePathAsync` (symmetric) or `generatePerCornerPathAsync` (per-corner). -/
inductive ReqParams
  | sym (w h e : ℚ)
  | corner (w h : ℚ) (c : CornerExponents)
deriving DecidableEq

/-- The path either execution strategy computes for the given parameters: both
the worker and the synchronous fallback invoke the same `utils/math`
functions. -/
def pathFor (k : NumKernel) : ReqParams → String
  | ReqParams.sym w h e => generatePathSync k w h e
  | ReqParams.corner w h c => generatePerCornerPathSync k w h c

/-- Correlation id minted by the manager: `req-${++requestIdCounter}-${Date.now()}`.
The string encoding of the pair is injective, so the id is embedded as the pair
itself. -/
structure CorrelationId where
  counter : Nat
  ts : Nat
deriving DecidableEq

/-- An inbound worker message as the untyped runtime object `event.data` the
worker destructures: a `type` discriminant, an `id`, and the mode-specific
numeric payload (fields not present on the wire are 0-valued here; the handler
never reads a field its branch does not own). -/
structure RawMsg where
  type : String
  id : CorrelationId
  width : ℚ
  height : ℚ
  exp : ℚ
  corners : CornerExponents
deriving DecidableEq

/-- A message posted back by the worker: `{ id, pathData }` on success or
`{ id, error }` on failure (the field the variant does not carry is `none`). -/
structure RespMsg where
  id : CorrelationId
  pathData : Option String
  error : Option String
deriving DecidableEq

/-- The worker's `self.onmessage` handler (`math.worker.ts`): dispatch on the
`type` discriminant, generate, post `{id, pathData}`; any exception — either
from generation (environment oracle `genFail` carries the caught message) or
from the unknown-type `throw` — is caught and posted as `{id, error}`. -/
def workerOnMessage (k : NumKernel) (genFail : Option String) (m : RawMsg) : RespMsg :=
  if m.type = "GENERATE_PATH_SYMMETRIC" then
    match genFail with
    | some msg => ⟨m.id, none, some msg⟩
    | none => ⟨m.id, some (getSuperellipsePath k m.width m.height m.exp), none⟩
  else if m.type = "GENERATE_PATH_ASYMMETRIC" then
    match genFail with
    | some msg => ⟨m.id, none, some msg⟩
    | none => ⟨m.id, some (getPerCornerSuperellipsePath k m.width m.height m.corners), none⟩
  else
    ⟨m.id, none, some ("Unknown message type: " ++ m.type)⟩

/-- The error a caller's promise can be rejected with. -/
inductive ErrV
  | genErr (msg : String)
  | timeoutErr
  | workerFail (msg : String)
  | postEx (msg : String)
deriving DecidableEq

/-- A settled promise value. -/
inductive Settled
  | ok (pathData : Option String)
  | err (e : ErrV)
deriving DecidableEq

/-- JavaScript promise settlement: resolving or rejecting an already settled
promise is a no-op. -/
def settleP (o : Settled) : Option Settled → Option Settled
  | none => some o
  | some x => some x

/-- One request issued through the async path: its correlation id, its payload,
its caller-visible promise (`none` while pending), how many times the
resolve/reject pair stored in `pendingRequests` has been invoked, and its
timeout (armed flag and the budget passed to `setTimeout`). -/
structure Req where
  id : CorrelationId
  params : ReqParams
  promise : Option Settled
  entryInvoked : Nat
  timeoutArmed : Bool
  timeoutBudget : Nat
deriving DecidableEq

/-- The stored entry's `resolve` closure: `clearTimeout(timeoutId); resolve(pathData)`. -/
def invokeResolve (r : Req) (pd : Option String) : Req :=
  { r with entryInvoked := r.entryInvoked + 1, timeoutArmed := false,
           promise := settleP (Settled.ok pd) r.promise }

/-- The stored entry's `reject` closure: `clearTimeout(timeoutId); reject(error)`. -/
def invokeReject (r : Req) (e : ErrV) : Req :=
  { r with entryInvoked := r.entryInvoked + 1, timeoutArmed := false,
           promise := settleP (Settled.err e) r.promise }

/-- What one call to a public entry point returned: the synchronously computed
path (fallback) or a pending promise correlated by id. -/
inductive CallOutcome
  | syncFallback (result : String)
  | asyncIssued (id : CorrelationId)
deriving DecidableEq

/-- The manager's module-level state plus the observables the claims are about:
the id counter, the `worker` handle's existence, how many times `new Worker`
was attempted, the keys of the `pendingRequests` map, every request ever
issued (with its promise, invocation count and timeout), the worker's
unprocessed inbox, its undelivered responses, the unknown-id warning log, and
the outcome of every public call. -/
structure Sys where
  requestIdCounter : Nat
  worker : Bool
  constructionAttempts : Nat
  pendingRequests : List CorrelationId
  reqs : List Req
  inbox : List RawMsg
  responses : List RespMsg
  warnings : List CorrelationId
  calls : List CallOutcome
deriving DecidableEq

/-- Fresh module state. -/
def initSys : Sys := ⟨0, false, 0, [], [], [], [], [], []⟩

/-- Deletion of a key from the pending map. -/
def tableDelete (id : CorrelationId) (t : List CorrelationId) : List CorrelationId :=
  t.filter fun x => x ≠ id

/-- Truthiness of the `error` field in the manager's `onmessage`
(`if (error) ...`): absent or empty-string errors are falsy. -/
def errTruthy (p : RespMsg) : Bool :=
  match p.error with
  | some m => m != ""
  | none => false

/-- Effect of a delivered response on the one request whose id it carries:
invoke the stored reject (truthy `error`) or the stored resolve (with
`pathData`); other requests are untouched. -/
def respUpdate (p : RespMsg) (r : Req) : Req :=
  if r.id = p.id then
    (if errTruthy p then invokeReject r (ErrV.genErr (p.error.getD ""))
     else invokeResolve r p.pathData)
  else r

/-- The manager's `worker.onmessage` handler: look the id up in
`pendingRequests`; if absent, warn and discard; otherwise delete the entry and
invoke its reject (truthy `error`) or its resolve (with `pathData`). -/
def mgrOnMessage (s : Sys) (p : RespMsg) : Sys :=
  if p.id ∈ s.pendingRequests then
    { s with pendingRequests := tableDelete p.id s.pendingRequests,
             reqs := s.reqs.map (respUpdate p) }
  else
    { s with warnings := s.warnings ++ [p.id] }

/-- Effect of the worker-level error handler on one request: entries currently
pending are rejected with `Worker error: ${event.message}`; the rest are
untouched. -/
def errUpdate (pend : List CorrelationId) (msg : String) (r : Req) : Req :=
  if r.id ∈ pend then invokeReject r (ErrV.workerFail ("Worker error: " ++ msg)) else r

/-- The manager's `worker.onerror` handler: reject every pending entry with
`Worker error: ${event.message}` and clear the pending map. -/
def mgrOnError (s : Sys) (msg : String) : Sys :=
  { s with
      reqs := s.reqs.map (errUpdate s.pendingRequests msg),
      pendingRequests := [] }

/-- Effect of a fired timeout on one request: disarm and reject the raw
promise with the timeout error; the stored entry callbacks are not invoked. -/
def timeoutUpdate (id : CorrelationId) (r : Req) : Req :=
  if r.id = id then
    { r with timeoutArmed := false,
             promise := settleP (Settled.err ErrV.timeoutErr) r.promise }
  else r

/-- The dispatch message the manager posts for the given payload. -/
def msgFor (id : CorrelationId) : ReqParams → RawMsg
  | ReqParams.sym w h e => ⟨"GENERATE_PATH_SYMMETRIC", id, w, h, e, ⟨0, 0, 0, 0⟩⟩
  | ReqParams.corner w h c => ⟨"GENERATE_PATH_ASYMMETRIC", id, w, h, 0, c⟩

/-- The promise-executor body shared by `generatePathAsync` and
`generatePerCornerPathAsync` once a worker instance is in hand: mint the id
(`++requestIdCounter` plus timestamp), arm the 10000 ms timeout, store the
entry, post the message.  When `postMessage` throws (`postFail = some m`), the
Promise constructor converts the executor's exception into a rejection of the
returned promise — the surrounding `try/catch` of the async function never
runs, so no synchronous fallback happens and the stored entry stays in the
table with its timeout armed. -/
def issueReq (postFail : Option String) (now : Nat) (ps : ReqParams) (s : Sys) : Sys :=
  let c := s.requestIdCounter + 1
  let id : CorrelationId := ⟨c, now⟩
  { s with
      requestIdCounter := c,
      pendingRequests := s.pendingRequests ++ [id],
      reqs := s.reqs ++ [⟨id, ps,
        (match postFail with
         | none => none
         | some m => some (Settled.err (ErrV.postEx m))),
        0, true, 10000⟩],
      inbox :=
        (match postFail with
         | none => s.inbox ++ [msgFor id ps]
         | some _ => s.inbox),
      calls := s.calls ++ [CallOutcome.asyncIssued id] }

/-- One call to a public entry point.  `initWorker`: an existing worker is
reused; otherwise construction is attempted (`ctorOk` is the environment's
verdict) — on failure `initWorker` returns null and the call computes the path
synchronously; nothing records the failure for later calls. -/
def stepCall (k : NumKernel) (ctorOk : Bool) (postFail : Option String) (now : Nat)
    (ps : ReqParams) (s : Sys) : Sys :=
  if s.worker then
    issueReq postFail now ps s
  else if ctorOk then
    issueReq postFail now ps
      { s with worker := true, constructionAttempts := s.constructionAttempts + 1 }
  else
    { s with constructionAttempts := s.constructionAttempts + 1,
             calls := s.calls ++ [CallOutcome.syncFallback (pathFor k ps)] }

/-- One atomic event-loop turn.  Environment choices ride on the event. -/
inductive Event
  | call (ctorOk : Bool) (postFail : Option String) (now : Nat) (ps : ReqParams)
  | workerRun (genFail : Option String)
  | deliver
  | timeout (id : CorrelationId)
  | workerErr (msg : String)
  | terminate
deriving DecidableEq

/-- The transition function.  `workerRun`: the worker processes its oldest
message and posts a response.  `deliver`: the manager's `onmessage` runs on the
oldest response.  `timeout id`: the `setTimeout` callback for `id` fires, if
still armed: it deletes the entry and rejects the raw promise with the timeout
error (it does not go through the stored entry callbacks).  `workerErr`: the
`onerror` handler runs.  `terminate`: `terminateWorker()` — destroys the
worker and clears the pending map, leaving armed timeouts untouched. -/
def step (k : NumKernel) (s : Sys) : Event → Sys
  | Event.call ctorOk postFail now ps => stepCall k ctorOk postFail now ps s
  | Event.workerRun genFail =>
      match s.inbox with
      | [] => s
      | m :: rest =>
          { s with inbox := rest, responses := s.responses ++ [workerOnMessage k genFail m] }
  | Event.deliver =>
      match s.responses with
      | [] => s
      | p :: rest => mgrOnMessage { s with responses := rest } p
  | Event.timeout id =>
      if (s.reqs.find? fun r => r.id == id).any (fun r => r.timeoutArmed) then
        { s with pendingRequests := tableDelete id s.pendingRequests,
                 reqs := s.reqs.map (timeoutUpdate id) }
      else s
  | Event.workerErr msg => if s.worker then mgrOnError s msg else s
  | Event.terminate =>
      if s.worker then
        { s with worker := false, pendingRequests := [], inbox := [], responses := [] }
      else s

/-- A run of the system from the fresh module state. -/
def run (k : NumKernel) (evs : List Event) : Sys := evs.foldl (step k) initSys

/-- A concrete numeric kernel used to evaluate the model at explicit inputs. -/
def kDemo : NumKernel := ⟨fun b _ => b, fun _ => 0, fun _ => 0⟩

end Tumsvd
namespace Tumsvd

lemma mem_tableDelete {x id : CorrelationId} {t : List CorrelationId} :
    x ∈ tableDelete id t ↔ x ∈ t ∧ x ≠ id := by
  simp [tableDelete]

lemma map_update_ids (l : List Req) (f : Req → Req) (h : ∀ r, (f r).id = r.id) :
    (l.map f).map Req.id = l.map Req.id := by
  rw [List.map_map]
  exact List.map_congr_left fun a _ => h a

lemma workerOnMessage_msgFor (k : NumKernel) (id : CorrelationId) (ps : ReqParams) :
    workerOnMessage k none (msgFor id ps) = ⟨id, some (pathFor k ps), none⟩ := by
  cases ps <;>
    simp [workerOnMessage, msgFor, pathFor, generatePathSync, generatePerCornerPathSync]

lemma workerOnMessage_genFail (k : NumKernel) (msg : String) (id : CorrelationId)
    (ps : ReqParams) :
    workerOnMessage k (some msg) (msgFor id ps) = ⟨id, none, some msg⟩ := by
  cases ps <;> simp [workerOnMessage, msgFor]

/-- The inductive invariant of the dispatch layer: ids are minted below the
counter and are pairwise distinct; entry callbacks are invoked at most once and
an invoked entry is no longer pending; every queued message and every success
response corresponds to a registered request with the same payload; a resolved
promise carries exactly the path the generator computes for the request's own
parameters; every timeout was armed with the fixed 10000 ms budget. -/
structure Inv (k : NumKernel) (s : Sys) : Prop where
  counterBound : ∀ r ∈ s.reqs, r.id.counter ≤ s.requestIdCounter
  idsNodup : (s.reqs.map Req.id).Nodup
  invokedLe : ∀ r ∈ s.reqs, r.entryInvoked ≤ 1
  invokedGone : ∀ r ∈ s.reqs, 1 ≤ r.entryInvoked → r.id ∉ s.pendingRequests
  inboxMatches : ∀ m ∈ s.inbox, ∃ r ∈ s.reqs, m = msgFor r.id r.params
  respOk : ∀ p ∈ s.responses, p.error = none →
    ∃ r ∈ s.reqs, r.id = p.id ∧ p.pathData = some (pathFor k r.params)
  respErrNoData : ∀ p ∈ s.responses, p.error ≠ none → p.pathData = none
  promiseOk : ∀ r ∈ s.reqs, ∀ pd, r.promise = some (Settled.ok (some pd)) →
    pd = pathFor k r.params
  budgetFixed : ∀ r ∈ s.reqs, r.timeoutBudget = 10000

lemma inv_initSys (k : NumKernel) : Inv k initSys := by
  constructor <;> simp [initSys]

lemma inv_issueReq {k : NumKernel} {s : Sys} (hs : Inv k s) (postFail : Option String)
    (now : Nat) (ps : ReqParams) : Inv k (issueReq postFail now ps s) := by
  constructor
  case counterBound =>
    intro r hr
    simp only [issueReq, List.mem_append, List.mem_singleton] at hr ⊢
    rcases hr with hr | hr
    · exact Nat.le_succ_of_le (hs.counterBound r hr)
    · subst hr; simp
  case idsNodup =>
    simp only [issueReq, List.map_append, List.map_cons, List.map_nil]
    rw [List.nodup_append]
    refine ⟨hs.idsNodup, List.nodup_singleton _, ?_⟩
    intro x hx hx'
    simp only [List.mem_singleton] at hx'
    subst hx'
    rcases List.mem_map.mp hx with ⟨r, hr, hid⟩
    have := hs.counterBound r hr
    rw [hid] at this
    simp at this
  case invokedLe =>
    intro r hr
    simp only [issueReq, List.mem_append, List.mem_singleton] at hr
    rcases hr with hr | hr
    · exact hs.invokedLe r hr
    · subst hr; simp
  case invokedGone =>
    intro r hr h1
    simp only [issueReq, List.mem_append, List.mem_singleton] at hr ⊢
    rcases hr with hr | hr
    · intro hmem
      rcases hmem with hmem | hmem
      · exact hs.invokedGone r hr h1 hmem
      · have := hs.counterBound r hr
        rw [hmem] at this
        simp at this
    · subst hr; simp at h1
  case inboxMatches =>
    intro m hm
    cases postFail with
    | none =>
        simp only [issueReq, List.mem_append, List.mem_singleton] at hm
        rcases hm with hm | hm
        · rcases hs.inboxMatches m hm with ⟨r, hr, hmr⟩
          exact ⟨r, by simp [issueReq, List.mem_append, hr], hmr⟩
        · subst hm
          refine ⟨⟨⟨s.requestIdCounter + 1, now⟩, ps, none, 0, true, 10000⟩, ?_, rfl⟩
          simp [issueReq]
    | some pm =>
        simp only [issueReq] at hm
        rcases hs.inboxMatches m hm with ⟨r, hr, hmr⟩
        exact ⟨r, by simp [issueReq, List.mem_append, hr], hmr⟩
  case respOk =>
    intro p hp hperr
    simp only [issueReq] at hp
    rcases hs.respOk p hp hperr with ⟨r, hr, hid, hpd⟩
    exact ⟨r, by simp [issueReq, List.mem_append, hr], hid, hpd⟩
  case respErrNoData =>
    intro p hp
    simp only [issueReq] at hp
    exact hs.respErrNoData p hp
  case promiseOk =>
    intro r hr pd hpd
    simp only [issueReq, List.mem_append, List.mem_singleton] at hr
    rcases hr with hr | hr
    · exact hs.promiseOk r hr pd hpd
    · subst hr
      cases postFail <;> simp_all
  case budgetFixed =>
    intro r hr
    simp only [issueReq, List.mem_append, List.mem_singleton] at hr
    rcases hr with hr | hr
    · exact hs.budgetFixed r hr
    · subst hr; rfl

lemma inv_congr {k : NumKernel} {s s' : Sys} (h : Inv k s)
    (h1 : s'.requestIdCounter = s.requestIdCounter)
    (h2 : s'.pendingRequests = s.pendingRequests) (h3 : s'.reqs = s.reqs)
    (h4 : s'.inbox = s.inbox) (h5 : s'.responses = s.responses) : Inv k s' :=
  ⟨by rw [h3, h1]; exact h.counterBound,
   by rw [h3]; exact h.idsNodup,
   by rw [h3]; exact h.invokedLe,
   by rw [h3, h2]; exact h.invokedGone,
   by rw [h4, h3]; exact h.inboxMatches,
   by rw [h5, h3]; exact h.respOk,
   by rw [h5]; exact h.respErrNoData,
   by rw [h3]; exact h.promiseOk,
   by rw [h3]; exact h.budgetFixed⟩

lemma inv_stepCall {k : NumKernel} {s : Sys} (hs : Inv k s) (ctorOk : Bool)
    (postFail : Option String) (now : Nat) (ps : ReqParams) :
    Inv k (stepCall k ctorOk postFail now ps s) := by
  unfold stepCall
  split
  · exact inv_issueReq hs postFail now ps
  · split
    · refine inv_issueReq ?_ postFail now ps
      exact inv_congr hs rfl rfl rfl rfl rfl
    · exact inv_congr hs rfl rfl rfl rfl rfl

lemma inv_workerRun {k : NumKernel} {s : Sys} (hs : Inv k s) (genFail : Option String) :
    Inv k (step k s (Event.workerRun genFail)) := by
  unfold step
  cases hin : s.inbox with
  | nil => simpa [hin] using hs
  | cons m rest =>
    have hm : m ∈ s.inbox := by rw [hin]; exact List.mem_cons_self m rest
    rcases hs.inboxMatches m hm with ⟨r0, hr0, hmr⟩
    refine ⟨?_, ?_, ?_, ?_, ?_, ?_, ?_, ?_, ?_⟩
    · intro r hr; exact hs.counterBound r hr
    · exact hs.idsNodup
    · intro r hr; exact hs.invokedLe r hr
    · intro r hr h1; exact hs.invokedGone r hr h1
    · intro m' hm'
      have : m' ∈ s.inbox := by rw [hin]; exact List.mem_cons_of_mem m hm'
      exact hs.inboxMatches m' this
    · intro p hp hperr
      simp only [List.mem_append, List.mem_singleton] at hp
      rcases hp with hp | hp
      · exact hs.respOk p hp hperr
      · subst hp
        cases genFail with
        | none =>
            subst hmr
            rw [workerOnMessage_msgFor] at hperr ⊢
            exact ⟨r0, hr0, rfl, rfl⟩
        | some msg =>
            subst hmr
            rw [workerOnMessage_genFail] at hperr
            simp at hperr
    · intro p hp hperr
      simp only [List.mem_append, List.mem_singleton] at hp
      rcases hp with hp | hp
      · exact hs.respErrNoData p hp hperr
      · subst hp
        cases genFail with
        | none =>
            subst hmr
            rw [workerOnMessage_msgFor] at hperr
            simp at hperr
        | some msg =>
            subst hmr
            rw [workerOnMessage_genFail]
    · intro r hr pd hpd; exact hs.promiseOk r hr pd hpd
    · intro r hr; exact hs.budgetFixed r hr

lemma respUpdate_id (p : RespMsg) (r : Req) : (respUpdate p r).id = r.id := by
  unfold respUpdate
  split
  · split <;> rfl
  · rfl

lemma respUpdate_params (p : RespMsg) (r : Req) : (respUpdate p r).params = r.params := by
  unfold respUpdate
  split
  · split <;> rfl
  · rfl

lemma respUpdate_budget (p : RespMsg) (r : Req) :
    (respUpdate p r).timeoutBudget = r.timeoutBudget := by
  unfold respUpdate
  split
  · split <;> rfl
  · rfl

lemma respUpdate_of_ne {p : RespMsg} {r : Req} (h : r.id ≠ p.id) : respUpdate p r = r := by
  unfold respUpdate
  rw [if_neg h]

lemma errUpdate_id (t : List CorrelationId) (msg : String) (r : Req) :
    (errUpdate t msg r).id = r.id := by
  unfold errUpdate
  split <;> rfl

lemma errUpdate_params (t : List CorrelationId) (msg : String) (r : Req) :
    (errUpdate t msg r).params = r.params := by
  unfold errUpdate
  split <;> rfl

lemma errUpdate_budget (t : List CorrelationId) (msg : String) (r : Req) :
    (errUpdate t msg r).timeoutBudget = r.timeoutBudget := by
  unfold errUpdate
  split <;> rfl

lemma timeoutUpdate_id (id : CorrelationId) (r : Req) : (timeoutUpdate id r).id = r.id := by
  unfold timeoutUpdate
  split <;> rfl

lemma timeoutUpdate_params (id : CorrelationId) (r : Req) :
    (timeoutUpdate id r).params = r.params := by
  unfold timeoutUpdate
  split <;> rfl

lemma timeoutUpdate_budget (id : CorrelationId) (r : Req) :
    (timeoutUpdate id r).timeoutBudget = r.timeoutBudget := by
  unfold timeoutUpdate
  split <;> rfl

lemma timeoutUpdate_invoked (id : CorrelationId) (r : Req) :
    (timeoutUpdate id r).entryInvoked = r.entryInvoked := by
  unfold timeoutUpdate
  split <;> rfl

lemma invoked_zero_of_pending {k : NumKernel} {s : Sys} (hs : Inv k s) {r : Req}
    (hr : r ∈ s.reqs) (hmem : r.id ∈ s.pendingRequests) : r.entryInvoked = 0 := by
  by_contra h
  exact hs.invokedGone r hr (Nat.one_le_iff_ne_zero.mpr h) hmem

lemma inv_mgrOnMessage {k : NumKernel} {s : Sys} (hs : Inv k s) (p : RespMsg)
    (hok : p.error = none → ∃ r ∈ s.reqs, r.id = p.id ∧ p.pathData = some (pathFor k r.params))
    (herr : p.error ≠ none → p.pathData = none) :
    Inv k (mgrOnMessage s p) := by
  unfold mgrOnMessage
  split
  case isTrue hmem =>
    refine ⟨?_, ?_, ?_, ?_, ?_, ?_, ?_, ?_, ?_⟩
    · intro r' hr'
      rcases List.mem_map.mp hr' with ⟨r, hr, rfl⟩
      rw [respUpdate_id]
      exact hs.counterBound r hr
    · rw [map_update_ids _ _ (respUpdate_id p)]
      exact hs.idsNodup
    · intro r' hr'
      rcases List.mem_map.mp hr' with ⟨r, hr, rfl⟩
      by_cases h1 : r.id = p.id
      · have h0 : r.entryInvoked = 0 := invoked_zero_of_pending hs hr (h1 ▸ hmem)
        unfold respUpdate
        rw [if_pos h1]
        split <;> simp [invokeReject, invokeResolve, h0]
      · rw [respUpdate_of_ne h1]
        exact hs.invokedLe r hr
    · intro r' hr' h1
      rcases List.mem_map.mp hr' with ⟨r, hr, rfl⟩
      rw [respUpdate_id, mem_tableDelete]
      rintro ⟨hmem', hne⟩
      by_cases h2 : r.id = p.id
      · exact hne h2
      · rw [respUpdate_of_ne h2] at h1
        exact hs.invokedGone r hr h1 hmem'
    · intro m hm
      rcases hs.inboxMatches m hm with ⟨r, hr, rfl⟩
      exact ⟨respUpdate p r, List.mem_map_of_mem _ hr,
        by rw [respUpdate_id, respUpdate_params]⟩
    · intro q hq hqerr
      rcases hs.respOk q hq hqerr with ⟨r, hr, hid, hpd⟩
      exact ⟨respUpdate p r, List.mem_map_of_mem _ hr,
        by rw [respUpdate_id]; exact hid, by rw [respUpdate_params]; exact hpd⟩
    · intro q hq
      exact hs.respErrNoData q hq
    · intro r' hr' pd hpd
      rcases List.mem_map.mp hr' with ⟨r, hr, rfl⟩
      rw [respUpdate_params]
      by_cases h1 : r.id = p.id
      · unfold respUpdate at hpd
        rw [if_pos h1] at hpd
        by_cases h2 : errTruthy p
        · rw [if_pos h2] at hpd
          simp only [invokeReject] at hpd
          cases hrp : r.promise with
          | none => rw [hrp] at hpd; simp [settleP] at hpd
          | some x =>
              rw [hrp] at hpd
              simp only [settleP] at hpd
              exact hs.promiseOk r hr pd (by rw [hrp, hpd])
        · rw [if_neg h2] at hpd
          simp only [invokeResolve] at hpd
          cases hrp : r.promise with
          | some x =>
              rw [hrp] at hpd
              simp only [settleP] at hpd
              exact hs.promiseOk r hr pd (by rw [hrp, hpd])
          | none =>
              rw [hrp] at hpd
              simp only [settleP, Option.some.injEq, Settled.ok.injEq] at hpd
              cases hperr : p.error with
              | none =>
                  rcases hok hperr with ⟨r2, hr2, hid2, hpd2⟩
                  have : r = r2 :=
                    List.inj_on_of_nodup_map hs.idsNodup hr hr2 (by rw [h1, hid2])
                  subst this
                  rw [hpd2] at hpd
                  simp only [Option.some.injEq] at hpd
                  exact hpd.symm
              | some m =>
                  have hf : errTruthy p = false := by
                    simpa using h2
                  have : p.pathData = none := herr (by rw [hperr]; simp)
                  rw [this] at hpd
                  simp at hpd
      · rw [respUpdate_of_ne h1] at hpd
        exact hs.promiseOk r hr pd hpd
    · intro r' hr'
      rcases List.mem_map.mp hr' with ⟨r, hr, rfl⟩
      rw [respUpdate_budget]
      exact hs.budgetFixed r hr
  case isFalse hmem =>
    exact inv_congr hs rfl rfl rfl rfl rfl

lemma inv_respTail {k : NumKernel} {s : Sys} (hs : Inv k s) {p : RespMsg}
    {rest : List RespMsg} (h : s.responses = p :: rest) :
    Inv k { s with responses := rest } := by
  refine ⟨hs.counterBound, hs.idsNodup, hs.invokedLe, hs.invokedGone, hs.inboxMatches,
    ?_, ?_, hs.promiseOk, hs.budgetFixed⟩
  · intro q hq hqerr
    exact hs.respOk q (by rw [h]; exact List.mem_cons_of_mem p hq) hqerr
  · intro q hq
    exact hs.respErrNoData q (by rw [h]; exact List.mem_cons_of_mem p hq)

lemma inv_deliver {k : NumKernel} {s : Sys} (hs : Inv k s) :
    Inv k (step k s Event.deliver) := by
  unfold step
  cases hresp : s.responses with
  | nil => simpa [hresp] using hs
  | cons p rest =>
    have hp : p ∈ s.responses := by rw [hresp]; exact List.mem_cons_self p rest
    exact inv_mgrOnMessage (inv_respTail hs hresp) p
      (fun he => hs.respOk p hp he) (fun he => hs.respErrNoData p hp he)

lemma inv_timeout {k : NumKernel} {s : Sys} (hs : Inv k s) (id : CorrelationId) :
    Inv k (step k s (Event.timeout id)) := by
  simp only [step]
  split
  case isTrue hguard =>
    refine ⟨?_, ?_, ?_, ?_, ?_, ?_, ?_, ?_, ?_⟩
    · intro r' hr'
      rcases List.mem_map.mp hr' with ⟨r, hr, rfl⟩
      rw [timeoutUpdate_id]
      exact hs.counterBound r hr
    · rw [map_update_ids _ _ (timeoutUpdate_id id)]
      exact hs.idsNodup
    · intro r' hr'
      rcases List.mem_map.mp hr' with ⟨r, hr, rfl⟩
      rw [timeoutUpdate_invoked]
      exact hs.invokedLe r hr
    · intro r' hr' h1
      rcases List.mem_map.mp hr' with ⟨r, hr, rfl⟩
      rw [timeoutUpdate_invoked] at h1
      rw [timeoutUpdate_id, mem_tableDelete]
      rintro ⟨hmem', _⟩
      exact hs.invokedGone r hr h1 hmem'
    · intro m hm
      rcases hs.inboxMatches m hm with ⟨r, hr, rfl⟩
      exact ⟨timeoutUpdate id r, List.mem_map_of_mem _ hr,
        by rw [timeoutUpdate_id, timeoutUpdate_params]⟩
    · intro q hq hqerr
      rcases hs.respOk q hq hqerr with ⟨r, hr, hid, hpd⟩
      exact ⟨timeoutUpdate id r, List.mem_map_of_mem _ hr,
        by rw [timeoutUpdate_id]; exact hid, by rw [timeoutUpdate_params]; exact hpd⟩
    · intro q hq
      exact hs.respErrNoData q hq
    · intro r' hr' pd hpd
      rcases List.mem_map.mp hr' with ⟨r, hr, rfl⟩
      rw [timeoutUpdate_params]
      unfold timeoutUpdate at hpd
      by_cases h1 : r.id = id
      · rw [if_pos h1] at hpd
        simp only at hpd
        cases hrp : r.promise with
        | none => rw [hrp] at hpd; simp [settleP] at hpd
        | some x =>
            rw [hrp] at hpd
            simp only [settleP] at hpd
            exact hs.promiseOk r hr pd (by rw [hrp, hpd])
      · rw [if_neg h1] at hpd
        exact hs.promiseOk r hr pd hpd
    · intro r' hr'
      rcases List.mem_map.mp hr' with ⟨r, hr, rfl⟩
      rw [timeoutUpdate_budget]
      exact hs.budgetFixed r hr
  case isFalse hguard =>
    exact hs

lemma inv_workerErr {k : NumKernel} {s : Sys} (hs : Inv k s) (msg : String) :
    Inv k (step k s (Event.workerErr msg)) := by
  simp only [step]
  split
  case isTrue hw =>
    unfold mgrOnError
    refine ⟨?_, ?_, ?_, ?_, ?_, ?_, ?_, ?_, ?_⟩
    · intro r' hr'
      rcases List.mem_map.mp hr' with ⟨r, hr, rfl⟩
      rw [errUpdate_id]
      exact hs.counterBound r hr
    · rw [map_update_ids _ _ (errUpdate_id s.pendingRequests msg)]
      exact hs.idsNodup
    · intro r' hr'
      rcases List.mem_map.mp hr' with ⟨r, hr, rfl⟩
      unfold errUpdate
      split
      case isTrue hmem =>
        have h0 : r.entryInvoked = 0 := invoked_zero_of_pending hs hr hmem
        simp [invokeReject, h0]
      case isFalse hmem =>
        exact hs.invokedLe r hr
    · intro r' hr' h1
      simp
    · intro m hm
      rcases hs.inboxMatches m hm with ⟨r, hr, rfl⟩
      exact ⟨errUpdate s.pendingRequests msg r, List.mem_map_of_mem _ hr,
        by rw [errUpdate_id, errUpdate_params]⟩
    · intro q hq hqerr
      rcases hs.respOk q hq hqerr with ⟨r, hr, hid, hpd⟩
      exact ⟨errUpdate s.pendingRequests msg r, List.mem_map_of_mem _ hr,
        by rw [errUpdate_id]; exact hid, by rw [errUpdate_params]; exact hpd⟩
    · intro q hq
      exact hs.respErrNoData q hq
    · intro r' hr' pd hpd
      rcases List.mem_map.mp hr' with ⟨r, hr, rfl⟩
      rw [errUpdate_params]
      unfold errUpdate at hpd
      by_cases h1 : r.id ∈ s.pendingRequests
      · rw [if_pos h1] at hpd
        simp only [invokeReject] at hpd
        cases hrp : r.promise with
        | none => rw [hrp] at hpd; simp [settleP] at hpd
        | some x =>
            rw [hrp] at hpd
            simp only [settleP] at hpd
            exact hs.promiseOk r hr pd (by rw [hrp, hpd])
      · rw [if_neg h1] at hpd
        exact hs.promiseOk r hr pd hpd
    · intro r' hr'
      rcases List.mem_map.mp hr' with ⟨r, hr, rfl⟩
      rw [errUpdate_budget]
      exact hs.budgetFixed r hr
  case isFalse hw =>
    exact hs

lemma inv_terminate {k : NumKernel} {s : Sys} (hs : Inv k s) :
    Inv k (step k s Event.terminate) := by
  simp only [step]
  split
  case isTrue hw =>
    refine ⟨hs.counterBound, hs.idsNodup, hs.invokedLe, ?_, ?_, ?_, ?_, hs.promiseOk,
      hs.budgetFixed⟩ <;> simp
  case isFalse hw =>
    exact hs

lemma inv_step {k : NumKernel} {s : Sys} (hs : Inv k s) (e : Event) :
    Inv k (step k s e) := by
  cases e with
  | call ctorOk postFail now ps => exact inv_stepCall hs ctorOk postFail now ps
  | workerRun genFail => exact inv_workerRun hs genFail
  | deliver => exact inv_deliver hs
  | timeout id => exact inv_timeout hs id
  | workerErr msg => exact inv_workerErr hs msg
  | terminate => exact inv_terminate hs

lemma inv_foldl {k : NumKernel} (evs : List Event) :
    ∀ s : Sys, Inv k s → Inv k (evs.foldl (step k) s) := by
  induction evs with
  | nil => intro s hs; exact hs
  | cons e rest ih => intro s hs; exact ih (step k s e) (inv_step hs e)

lemma inv_run (k : NumKernel) (evs : List Event) : Inv k (run k evs) :=
  inv_foldl evs initSys (inv_initSys k)

lemma find_id_of_nodup {l : List Req} (hnd : (l.map Req.id).Nodup) {r : Req} (hr : r ∈ l) :
    (l.find? fun x => x.id == r.id) = some r := by
  induction l with
  | nil => cases hr
  | cons a tl ih =>
    by_cases hpa : a.id = r.id
    · have : r = a := by
        rcases List.mem_cons.mp hr with h | h
        · exact h
        · exfalso
          simp only [List.map_cons, List.nodup_cons] at hnd
          exact hnd.1 (hpa ▸ List.mem_map_of_mem Req.id h)
      subst this
      exact List.find?_cons_of_pos _ (by simp)
    · have hr' : r ∈ tl := by
        rcases List.mem_cons.mp hr with h | h
        · exact absurd (h ▸ rfl) hpa
        · exact h
      rw [List.find?_cons_of_neg _ (by simp [hpa])]
      exact ih (by simp only [List.map_cons, List.nodup_cons] at hnd; exact hnd.2) hr'

lemma timeout_fire {k : NumKernel} {s : Sys} {r : Req} (hnd : (s.reqs.map Req.id).Nodup)
    (hr : r ∈ s.reqs) (harm : r.timeoutArmed = true) :
    (step k s (Event.timeout r.id)).pendingRequests = tableDelete r.id s.pendingRequests ∧
    timeoutUpdate r.id r ∈ (step k s (Event.timeout r.id)).reqs := by
  have hguard : ((s.reqs.find? fun x => x.id == r.id).any fun x => x.timeoutArmed) = true := by
    rw [find_id_of_nodup hnd hr]
    simpa using harm
  simp only [step, if_pos hguard]
  exact ⟨trivial, List.mem_map_of_mem _ hr⟩

lemma timeoutUpdate_self {r : Req} (hp : r.promise = none) :
    timeoutUpdate r.id r =
      { r with timeoutArmed := false, promise := some (Settled.err ErrV.timeoutErr) } := by
  unfold timeoutUpdate
  rw [if_pos rfl, hp]
  rfl

/-- C1 (amended).  Stepwise, an id currently in the pending table leaves it only
through one of four removal paths: delivery of the worker response carrying
that very id, that id's own timeout firing, the worker-level error handler, or
`terminateWorker`.  Moreover, on every run, the resolve/reject pair stored for
a request is invoked at most once.  (The claim as frozen names only the first
three paths; `terminateWorker` also removes entries — see the counterexample.) -/
theorem pending_removal_paths_and_single_invocation (k : NumKernel) :
    (∀ (s : Sys) (e : Event) (id : CorrelationId),
      id ∈ s.pendingRequests → id ∉ (step k s e).pendingRequests →
      (∃ p rest, s.responses = p :: rest ∧ p.id = id ∧ e = Event.deliver) ∨
      e = Event.timeout id ∨ (∃ m, e = Event.workerErr m) ∨ e = Event.terminate) ∧
    (∀ evs : List Event, ∀ r ∈ (run k evs).reqs, r.entryInvoked ≤ 1) := by
  constructor
  · intro s e id hmem hnot
    cases e with
    | call co pf now ps =>
        exfalso
        apply hnot
        simp only [step, stepCall]
        split
        · simp [issueReq, hmem]
        · split
          · simp [issueReq, hmem]
          · simpa using hmem
    | workerRun gf =>
        exfalso
        apply hnot
        cases hin : s.inbox with
        | nil => simpa [step, hin] using hmem
        | cons m rest => simpa [step, hin] using hmem
    | deliver =>
        cases hresp : s.responses with
        | nil =>
            exfalso
            apply hnot
            simpa [step, hresp] using hmem
        | cons p rest =>
            left
            refine ⟨p, rest, rfl, ?_, rfl⟩
            simp only [step, hresp, mgrOnMessage] at hnot
            by_cases hpm : p.id ∈ s.pendingRequests
            · rw [if_pos (by simpa using hpm)] at hnot
              simp only [mem_tableDelete] at hnot
              push_neg at hnot
              exact (hnot (by simpa using hmem)).symm
            · rw [if_neg (by simpa using hpm)] at hnot
              exact absurd (by simpa using hmem) (by simpa using hnot)
    | timeout tid =>
        simp only [step] at hnot
        by_cases hguard :
            ((s.reqs.find? fun x => x.id == tid).any fun x => x.timeoutArmed) = true
        · rw [if_pos hguard] at hnot
          simp only [mem_tableDelete] at hnot
          push_neg at hnot
          right; left
          rw [hnot hmem]
        · rw [if_neg hguard] at hnot
          exact absurd hmem hnot
    | workerErr m =>
        right; right; left
        exact ⟨m, rfl⟩
    | terminate =>
        right; right; right
        rfl
  · intro evs r hr
    exact (inv_run k evs).invokedLe r hr

/-- C1 witness: a concrete pending entry removed by its own timeout firing
(second removal path), and a concrete run on which every stored entry has been
invoked at most once. -/
theorem pending_removal_paths_and_single_invocation_witness :
    ((⟨1, 7⟩ : CorrelationId) ∈
        (run kDemo [Event.call true none 7 (ReqParams.sym 0 0 2)]).pendingRequests) ∧
    ((⟨1, 7⟩ : CorrelationId) ∉
        (step kDemo (run kDemo [Event.call true none 7 (ReqParams.sym 0 0 2)])
          (Event.timeout ⟨1, 7⟩)).pendingRequests) ∧
    ((∃ p rest,
        (run kDemo [Event.call true none 7 (ReqParams.sym 0 0 2)]).responses = p :: rest ∧
        p.id = ⟨1, 7⟩ ∧ Event.timeout ⟨1, 7⟩ = Event.deliver) ∨
      Event.timeout ⟨1, 7⟩ = Event.timeout ⟨1, 7⟩ ∨
      (∃ m, Event.timeout ⟨1, 7⟩ = Event.workerErr m) ∨
      Event.timeout ⟨1, 7⟩ = Event.terminate) ∧
    (∀ r ∈ (run kDemo [Event.call true none 7 (ReqParams.sym 0 0 2)]).reqs,
      r.entryInvoked ≤ 1) :=
  ⟨by decide, by decide,
   (pending_removal_paths_and_single_invocation kDemo).1
     (run kDemo [Event.call true none 7 (ReqParams.sym 0 0 2)])
     (Event.timeout ⟨1, 7⟩) ⟨1, 7⟩ (by decide) (by decide),
   (pending_removal_paths_and_single_invocation kDemo).2
     [Event.call true none 7 (ReqParams.sym 0 0 2)]⟩

/-- C1 counterexample: the claim as stated (only the three resolution paths
remove an id) is false — `terminateWorker` removes a registered id although no
response was ever produced, the id's timeout never fired (it is still armed
afterwards), and the worker-level error handler never ran (no entry callback
was invoked, every promise is still pending). -/
theorem terminate_removes_pending_without_resolution_path :
    ((⟨1, 7⟩ : CorrelationId) ∈
        (run kDemo [Event.call true none 7 (ReqParams.sym 0 0 2)]).pendingRequests) ∧
    (run kDemo [Event.call true none 7 (ReqParams.sym 0 0 2)]).responses = [] ∧
    ((⟨1, 7⟩ : CorrelationId) ∉
        (run kDemo [Event.call true none 7 (ReqParams.sym 0 0 2),
          Event.terminate]).pendingRequests) ∧
    (∀ r ∈ (run kDemo [Event.call true none 7 (ReqParams.sym 0 0 2),
        Event.terminate]).reqs,
      r.entryInvoked = 0 ∧ r.timeoutArmed = true ∧ r.promise = none) := by
  refine ⟨by decide, by decide, by decide, by decide⟩

/-- C2 (amended).  A failed construction attempt is not recorded: the failing
call falls back to synchronous generation for that call alone (no entry is
registered), and any later call that finds no live worker attempts
construction anew — incrementing the attempt counter — and uses the worker if
its own attempt succeeds. -/
theorem construction_failure_not_recorded (k : NumKernel) (s : Sys) (pf : Option String)
    (now : Nat) (w h e : ℚ) (hw : s.worker = false) :
    (step k s (Event.call false none now (ReqParams.sym w h e)) =
      { s with constructionAttempts := s.constructionAttempts + 1,
               calls := s.calls ++ [CallOutcome.syncFallback (generatePathSync k w h e)] }) ∧
    (step k s (Event.call true pf now (ReqParams.sym w h e))).constructionAttempts
        = s.constructionAttempts + 1 ∧
    (step k s (Event.call true pf now (ReqParams.sym w h e))).worker = true := by
  refine ⟨?_, ?_, ?_⟩
  · simp only [step, stepCall, hw]
    rfl
  · simp only [step, stepCall, hw]
    rfl
  · simp only [step, stepCall, hw]
    rfl

/-- C2 witness: the amended behaviour evaluated at the fresh module state. -/
theorem construction_failure_not_recorded_witness :
    initSys.worker = false ∧
    (step kDemo initSys (Event.call false none 5 (ReqParams.sym 0 0 2)) =
      { initSys with constructionAttempts := initSys.constructionAttempts + 1,
                     calls := initSys.calls ++
                       [CallOutcome.syncFallback (generatePathSync kDemo 0 0 2)] }) ∧
    (step kDemo initSys (Event.call true none 6 (ReqParams.sym 0 0 2))).constructionAttempts
        = initSys.constructionAttempts + 1 ∧
    (step kDemo initSys (Event.call true none 6 (ReqParams.sym 0 0 2))).worker = true :=
  ⟨rfl,
   (construction_failure_not_recorded kDemo initSys none 5 0 0 2 rfl).1,
   (construction_failure_not_recorded kDemo initSys none 6 0 0 2 rfl).2.1,
   (construction_failure_not_recorded kDemo initSys none 6 0 0 2 rfl).2.2⟩

/-- C2 counterexample: after a call whose construction attempt failed, the very
next call attempts construction again (the attempt counter reaches 2) and —
the environment now permitting — obtains a worker and registers a pending
request instead of routing to the synchronous generator. -/
theorem construction_retried_after_failure :
    (run kDemo [Event.call false none 5 (ReqParams.sym 0 0 2),
      Event.call true none 6 (ReqParams.sym 0 0 2)]).constructionAttempts = 2 ∧
    (run kDemo [Event.call false none 5 (ReqParams.sym 0 0 2),
      Event.call true none 6 (ReqParams.sym 0 0 2)]).worker = true ∧
    (run kDemo [Event.call false none 5 (ReqParams.sym 0 0 2),
      Event.call true none 6 (ReqParams.sym 0 0 2)]).pendingRequests = [⟨1, 6⟩] ∧
    (run kDemo [Event.call false none 5 (ReqParams.sym 0 0 2),
      Event.call true none 6 (ReqParams.sym 0 0 2)]).calls.length = 2 ∧
    (run kDemo [Event.call false none 5 (ReqParams.sym 0 0 2),
      Event.call true none 6 (ReqParams.sym 0 0 2)]).calls.get? 1 =
      some (CallOutcome.asyncIssued ⟨1, 6⟩) := by
  refine ⟨by decide, by decide, by decide, by decide, by decide⟩

/-- C3 (code bug).  When `postMessage` throws while dispatching, the Promise
constructor converts the executor's exception into a rejection of the returned
promise; the `try/catch` of `generatePathAsync` wraps only the synchronous
prefix, so the documented per-call fallback to `generatePathSync` never runs.
Evaluated at the failing input: the call's outcome is a pending async promise
that is already rejected with the post exception (no `syncFallback` outcome was
produced), and the stale entry sits in the pending table with its timeout
armed. -/
theorem post_exception_rejects_instead_of_sync_fallback :
    run kDemo [Event.call true (some "postMessage failed") 7 (ReqParams.sym 0 0 2)] =
      ⟨1, true, 1, [⟨1, 7⟩],
       [⟨⟨1, 7⟩, ReqParams.sym 0 0 2, some (Settled.err (ErrV.postEx "postMessage failed")),
         0, true, 10000⟩],
       [], [], [], [CallOutcome.asyncIssued ⟨1, 7⟩]⟩ := by decide

/-- C4.  Every registered request's timeout was set with the fixed 10000 ms
budget; when a request's timeout fires while it is armed, the entry is removed
from the pending table and the caller's promise is rejected with the timeout
error; a response delivered for an id no longer in the table only appends a
warning and discards the response, changing nothing else. -/
theorem timeout_budget_fire_and_late_response (k : NumKernel) (evs : List Event) :
    (∀ r ∈ (run k evs).reqs, r.timeoutBudget = 10000) ∧
    (∀ r ∈ (run k evs).reqs, r.timeoutArmed = true → r.promise = none →
      (step k (run k evs) (Event.timeout r.id)).pendingRequests =
        tableDelete r.id (run k evs).pendingRequests ∧
      ({ r with timeoutArmed := false, promise := some (Settled.err ErrV.timeoutErr) } : Req)
        ∈ (step k (run k evs) (Event.timeout r.id)).reqs) ∧
    (∀ p rest, (run k evs).responses = p :: rest → p.id ∉ (run k evs).pendingRequests →
      step k (run k evs) Event.deliver =
        { run k evs with responses := rest,
                         warnings := (run k evs).warnings ++ [p.id] }) := by
  refine ⟨fun r hr => (inv_run k evs).budgetFixed r hr, ?_, ?_⟩
  · intro r hr harm hp
    obtain ⟨h1, h2⟩ := timeout_fire (inv_run k evs).idsNodup hr harm
    refine ⟨h1, ?_⟩
    rw [← timeoutUpdate_self hp]
    exact h2
  · intro p rest hresp hpm
    simp only [step, hresp, mgrOnMessage]
    rw [if_neg (by simpa using hpm)]

/-- C4 witness: a concrete armed request whose timeout fires, and a concrete
late error response — delivered after that very timeout removed the entry —
that is warned about and discarded. -/
theorem timeout_budget_fire_and_late_response_witness :
    ((⟨⟨1, 7⟩, ReqParams.sym 0 0 2, none, 0, true, 10000⟩ : Req) ∈
        (run kDemo [Event.call true none 7 (ReqParams.sym 0 0 2)]).reqs) ∧
    ((step kDemo (run kDemo [Event.call true none 7 (ReqParams.sym 0 0 2)])
        (Event.timeout ⟨1, 7⟩)).pendingRequests =
      tableDelete ⟨1, 7⟩
        (run kDemo [Event.call true none 7 (ReqParams.sym 0 0 2)]).pendingRequests ∧
      (⟨⟨1, 7⟩, ReqParams.sym 0 0 2, some (Settled.err ErrV.timeoutErr), 0, false,
          10000⟩ : Req)
        ∈ (step kDemo (run kDemo [Event.call true none 7 (ReqParams.sym 0 0 2)])
            (Event.timeout ⟨1, 7⟩)).reqs) ∧
    (run kDemo [Event.call true none 7 (ReqParams.sym 0 0 2),
        Event.workerRun (some "gen failed"), Event.timeout ⟨1, 7⟩]).responses =
      [⟨⟨1, 7⟩, none, some "gen failed"⟩] ∧
    ((⟨1, 7⟩ : CorrelationId) ∉
        (run kDemo [Event.call true none 7 (ReqParams.sym 0 0 2),
          Event.workerRun (some "gen failed"), Event.timeout ⟨1, 7⟩]).pendingRequests) ∧
    step kDemo (run kDemo [Event.call true none 7 (ReqParams.sym 0 0 2),
        Event.workerRun (some "gen failed"), Event.timeout ⟨1, 7⟩]) Event.deliver =
      { run kDemo [Event.call true none 7 (ReqParams.sym 0 0 2),
          Event.workerRun (some "gen failed"), Event.timeout ⟨1, 7⟩] with
        responses := [],
        warnings := (run kDemo [Event.call true none 7 (ReqParams.sym 0 0 2),
          Event.workerRun (some "gen failed"), Event.timeout ⟨1, 7⟩]).warnings ++
            [⟨1, 7⟩] } :=
  ⟨by decide,
   (timeout_budget_fire_and_late_response kDemo
      [Event.call true none 7 (ReqParams.sym 0 0 2)]).2.1
     ⟨⟨1, 7⟩, ReqParams.sym 0 0 2, none, 0, true, 10000⟩ (by decide) rfl rfl,
   by decide, by decide,
   (timeout_budget_fire_and_late_response kDemo
      [Event.call true none 7 (ReqParams.sym 0 0 2),
       Event.workerRun (some "gen failed"), Event.timeout ⟨1, 7⟩]).2.2
     ⟨⟨1, 7⟩, none, some "gen failed"⟩ [] (by decide) (by decide)⟩

/-- C5.  The worker-level error handler rejects every currently pending entry
with the context-failure error `Worker error: <message>` and leaves the
pending table empty, while requests no longer pending are untouched; an
error-carrying response, in contrast, removes and rejects only the entry whose
id it carries, leaving every other request unchanged. -/
theorem worker_error_batch_and_response_error_single (k : NumKernel) (s : Sys)
    (msg : String) :
    (s.worker = true →
      (step k s (Event.workerErr msg)).pendingRequests = [] ∧
      (∀ r ∈ s.reqs, r.id ∈ s.pendingRequests → r.promise = none → r.entryInvoked = 0 →
        ({ r with
            entryInvoked := 1,
            timeoutArmed := false,
            promise := some (Settled.err (ErrV.workerFail ("Worker error: " ++ msg))) } : Req)
          ∈ (step k s (Event.workerErr msg)).reqs) ∧
      (∀ r ∈ s.reqs, r.id ∉ s.pendingRequests → r ∈ (step k s (Event.workerErr msg)).reqs)) ∧
    (∀ p rest, s.responses = p :: rest → ∀ em, p.error = some em → em ≠ "" →
      p.id ∈ s.pendingRequests →
      (step k s Event.deliver).pendingRequests = tableDelete p.id s.pendingRequests ∧
      (∀ r ∈ s.reqs, r.id ≠ p.id → r ∈ (step k s Event.deliver).reqs) ∧
      (∀ r ∈ s.reqs, r.id = p.id → r.promise = none → r.entryInvoked = 0 →
        ({ r with
            entryInvoked := 1,
            timeoutArmed := false,
            promise := some (Settled.err (ErrV.genErr em)) } : Req)
          ∈ (step k s Event.deliver).reqs)) := by
  constructor
  · intro hw
    simp only [step, hw, if_true, mgrOnError]
    refine ⟨trivial, ?_, ?_⟩
    · intro r hr hmem hp h0
      have hupd : errUpdate s.pendingRequests msg r =
          { r with
              entryInvoked := 1,
              timeoutArmed := false,
              promise := some (Settled.err (ErrV.workerFail ("Worker error: " ++ msg))) } := by
        unfold errUpdate invokeReject
        rw [if_pos hmem, hp, h0]
        rfl
      rw [← hupd]
      exact List.mem_map_of_mem _ hr
    · intro r hr hnm
      have hupd : errUpdate s.pendingRequests msg r = r := by
        unfold errUpdate
        rw [if_neg hnm]
      rw [← hupd]
      exact List.mem_map_of_mem _ hr
  · intro p rest hresp em herr hne hpm
    have hET : errTruthy p = true := by
      simp only [errTruthy, herr]
      simpa using hne
    simp only [step, hresp, mgrOnMessage]
    rw [if_pos (by simpa using hpm)]
    refine ⟨rfl, ?_, ?_⟩
    · intro r hr hrne
      rw [← respUpdate_of_ne hrne]
      exact List.mem_map_of_mem _ hr
    · intro r hr hid hp h0
      have hupd : respUpdate p r =
          { r with
              entryInvoked := 1,
              timeoutArmed := false,
              promise := some (Settled.err (ErrV.genErr em)) } := by
        unfold respUpdate invokeReject
        rw [if_pos hid, if_pos hET, hp, h0, herr]
        rfl
      rw [← hupd]
      exact List.mem_map_of_mem _ hr

/-- C5 witness: a worker failure with two pending requests rejects both with
the context-failure error and empties the table, and an error response for one
id rejects exactly that entry. -/
theorem worker_error_batch_and_response_error_single_witness :
    ((⟨2, true, 1, [⟨1, 5⟩, ⟨2, 6⟩],
        [⟨⟨1, 5⟩, ReqParams.sym 0 0 2, none, 0, true, 10000⟩,
         ⟨⟨2, 6⟩, ReqParams.sym 0 0 3, none, 0, true, 10000⟩],
        [], [⟨⟨1, 5⟩, none, some "bad input"⟩], [], []⟩ : Sys).worker = true) ∧
    ((step kDemo
        ⟨2, true, 1, [⟨1, 5⟩, ⟨2, 6⟩],
          [⟨⟨1, 5⟩, ReqParams.sym 0 0 2, none, 0, true, 10000⟩,
           ⟨⟨2, 6⟩, ReqParams.sym 0 0 3, none, 0, true, 10000⟩],
          [], [⟨⟨1, 5⟩, none, some "bad input"⟩], [], []⟩
        (Event.workerErr "crashed")).pendingRequests = []) ∧
    ((⟨⟨1, 5⟩, ReqParams.sym 0 0 2,
        some (Settled.err (ErrV.workerFail "Worker error: crashed")), 1, false, 10000⟩ : Req)
      ∈ (step kDemo
          ⟨2, true, 1, [⟨1, 5⟩, ⟨2, 6⟩],
            [⟨⟨1, 5⟩, ReqParams.sym 0 0 2, none, 0, true, 10000⟩,
             ⟨⟨2, 6⟩, ReqParams.sym 0 0 3, none, 0, true, 10000⟩],
            [], [⟨⟨1, 5⟩, none, some "bad input"⟩], [], []⟩
          (Event.workerErr "crashed")).reqs) ∧
    ((⟨⟨2, 6⟩, ReqParams.sym 0 0 3,
        some (Settled.err (ErrV.workerFail "Worker error: crashed")), 1, false, 10000⟩ : Req)
      ∈ (step kDemo
          ⟨2, true, 1, [⟨1, 5⟩, ⟨2, 6⟩],
            [⟨⟨1, 5⟩, ReqParams.sym 0 0 2, none, 0, true, 10000⟩,
             ⟨⟨2, 6⟩, ReqParams.sym 0 0 3, none, 0, true, 10000⟩],
            [], [⟨⟨1, 5⟩, none, some "bad input"⟩], [], []⟩
          (Event.workerErr "crashed")).reqs) ∧
    ((step kDemo
        ⟨2, true, 1, [⟨1, 5⟩, ⟨2, 6⟩],
          [⟨⟨1, 5⟩, ReqParams.sym 0 0 2, none, 0, true, 10000⟩,
           ⟨⟨2, 6⟩, ReqParams.sym 0 0 3, none, 0, true, 10000⟩],
          [], [⟨⟨1, 5⟩, none, some "bad input"⟩], [], []⟩
        Event.deliver).pendingRequests =
      tableDelete ⟨1, 5⟩ [⟨1, 5⟩, ⟨2, 6⟩]) ∧
    ((⟨⟨2, 6⟩, ReqParams.sym 0 0 3, none, 0, true, 10000⟩ : Req)
      ∈ (step kDemo
          ⟨2, true, 1, [⟨1, 5⟩, ⟨2, 6⟩],
            [⟨⟨1, 5⟩, ReqParams.sym 0 0 2, none, 0, true, 10000⟩,
             ⟨⟨2, 6⟩, ReqParams.sym 0 0 3, none, 0, true, 10000⟩],
            [], [⟨⟨1, 5⟩, none, some "bad input"⟩], [], []⟩
          Event.deliver).reqs) ∧
    ((⟨⟨1, 5⟩, ReqParams.sym 0 0 2, some (Settled.err (ErrV.genErr "bad input")), 1,
        false, 10000⟩ : Req)
      ∈ (step kDemo
          ⟨2, true, 1, [⟨1, 5⟩, ⟨2, 6⟩],
            [⟨⟨1, 5⟩, ReqParams.sym 0 0 2, none, 0, true, 10000⟩,
             ⟨⟨2, 6⟩, ReqParams.sym 0 0 3, none, 0, true, 10000⟩],
            [], [⟨⟨1, 5⟩, none, some "bad input"⟩], [], []⟩
          Event.deliver).reqs) := by
  refine ⟨rfl, ?_, ?_, ?_, ?_, ?_, ?_⟩
  · exact ((worker_error_batch_and_response_error_single kDemo _ "crashed").1 rfl).1
  · exact ((worker_error_batch_and_response_error_single kDemo _ "crashed").1 rfl).2.1
      ⟨⟨1, 5⟩, ReqParams.sym 0 0 2, none, 0, true, 10000⟩ (by decide) (by decide) rfl rfl
  · exact ((worker_error_batch_and_response_error_single kDemo _ "crashed").1 rfl).2.1
      ⟨⟨2, 6⟩, ReqParams.sym 0 0 3, none, 0, true, 10000⟩ (by decide) (by decide) rfl rfl
  · exact ((worker_error_batch_and_response_error_single kDemo _ "ignored").2
      ⟨⟨1, 5⟩, none, some "bad input"⟩ [] rfl "bad input" rfl (by decide) (by decide)).1
  · exact ((worker_error_batch_and_response_error_single kDemo _ "ignored").2
      ⟨⟨1, 5⟩, none, some "bad input"⟩ [] rfl "bad input" rfl (by decide) (by decide)).2.1
      ⟨⟨2, 6⟩, ReqParams.sym 0 0 3, none, 0, true, 10000⟩ (by decide) (by decide)
  · exact ((worker_error_batch_and_response_error_single kDemo _ "ignored").2
      ⟨⟨1, 5⟩, none, some "bad input"⟩ [] rfl "bad input" rfl (by decide) (by decide)).2.2
      ⟨⟨1, 5⟩, ReqParams.sym 0 0 2, none, 0, true, 10000⟩ (by decide) rfl rfl rfl

/-- C6 (amended).  `terminateWorker` with a live worker destroys the execution
context and clears the pending table while leaving every request record — its
promise, its invocation count, and its still-armed timeout — untouched, so no
entry callback is invoked at termination time; but because the per-request
timeouts are not cancelled, an abandoned request's promise is subsequently
rejected with the timeout error when its timeout fires. -/
theorem terminate_clears_and_timeouts_survive (k : NumKernel) :
    (∀ s : Sys, s.worker = true →
      step k s Event.terminate =
        { s with worker := false, pendingRequests := [], inbox := [], responses := [] }) ∧
    (∀ s : Sys, ∀ r ∈ s.reqs, (s.reqs.map Req.id).Nodup → r.timeoutArmed = true →
      r.promise = none →
      (⟨r.id, r.params, some (Settled.err ErrV.timeoutErr), r.entryInvoked, false,
          r.timeoutBudget⟩ : Req)
        ∈ (step k (step k s Event.terminate) (Event.timeout r.id)).reqs) := by
  constructor
  · intro s hw
    simp only [step, hw, if_true]
  · intro s r hr hnd harm hp
    have hreqs : (step k s Event.terminate).reqs = s.reqs := by
      simp only [step]
      split <;> rfl
    have hr' : r ∈ (step k s Event.terminate).reqs := by
      rw [hreqs]
      exact hr
    have hnd' : ((step k s Event.terminate).reqs.map Req.id).Nodup := by
      rw [hreqs]
      exact hnd
    obtain ⟨h1, h2⟩ := timeout_fire hnd' hr' harm
    have hself : timeoutUpdate r.id r =
        ⟨r.id, r.params, some (Settled.err ErrV.timeoutErr), r.entryInvoked, false,
          r.timeoutBudget⟩ := by
      unfold timeoutUpdate
      rw [if_pos rfl, hp]
      rfl
    rw [← hself]
    exact h2

/-- C6 witness: the amended behaviour at a concrete state with one pending
request. -/
theorem terminate_clears_and_timeouts_survive_witness :
    ((⟨1, true, 1, [⟨1, 5⟩], [⟨⟨1, 5⟩, ReqParams.sym 0 0 2, none, 0, true, 10000⟩],
        [], [], [], []⟩ : Sys).worker = true) ∧
    (step kDemo
        ⟨1, true, 1, [⟨1, 5⟩], [⟨⟨1, 5⟩, ReqParams.sym 0 0 2, none, 0, true, 10000⟩],
          [], [], [], []⟩ Event.terminate =
      ⟨1, false, 1, [], [⟨⟨1, 5⟩, ReqParams.sym 0 0 2, none, 0, true, 10000⟩],
        [], [], [], []⟩) ∧
    ((⟨⟨1, 5⟩, ReqParams.sym 0 0 2, some (Settled.err ErrV.timeoutErr), 0, false,
        10000⟩ : Req)
      ∈ (step kDemo
          (step kDemo
            ⟨1, true, 1, [⟨1, 5⟩], [⟨⟨1, 5⟩, ReqParams.sym 0 0 2, none, 0, true, 10000⟩],
              [], [], [], []⟩ Event.terminate)
          (Event.timeout ⟨1, 5⟩)).reqs) :=
  ⟨rfl,
   (terminate_clears_and_timeouts_survive kDemo).1
     ⟨1, true, 1, [⟨1, 5⟩], [⟨⟨1, 5⟩, ReqParams.sym 0 0 2, none, 0, true, 10000⟩],
       [], [], [], []⟩ rfl,
   (terminate_clears_and_timeouts_survive kDemo).2
     ⟨1, true, 1, [⟨1, 5⟩], [⟨⟨1, 5⟩, ReqParams.sym 0 0 2, none, 0, true, 10000⟩],
       [], [], [], []⟩
     ⟨⟨1, 5⟩, ReqParams.sym 0 0 2, none, 0, true, 10000⟩ (List.Mem.head _) (by decide)
     rfl rfl⟩

/-- C6 counterexample: the claim as stated says pending promises are abandoned,
not rejected.  On the concrete run below, right after `terminateWorker` the
table is empty and the sole request's promise is still pending with no entry
callback invoked and its timeout still armed — but when that timeout fires,
the promise is rejected with the timeout error, so it is not abandoned. -/
theorem terminated_pending_promise_later_rejected :
    (run kDemo [Event.call true none 7 (ReqParams.sym 0 0 2),
        Event.terminate]).pendingRequests = [] ∧
    (∀ r ∈ (run kDemo [Event.call true none 7 (ReqParams.sym 0 0 2),
        Event.terminate]).reqs,
      r.promise = none ∧ r.entryInvoked = 0 ∧ r.timeoutArmed = true) ∧
    (run kDemo [Event.call true none 7 (ReqParams.sym 0 0 2), Event.terminate,
        Event.timeout ⟨1, 7⟩]).reqs =
      [⟨⟨1, 7⟩, ReqParams.sym 0 0 2, some (Settled.err ErrV.timeoutErr), 0, false,
        10000⟩] := by
  refine ⟨by decide, by decide, by decide⟩

/-- C7.  When the execution context is unavailable — construction failed
before or fails on this call — `generatePathAsync` computes the result
synchronously and immediately: the call's outcome is exactly
`generatePathSync` of the same inputs and the correlation table, the id
counter and every request record are untouched.  And on every run, whenever a
symmetric request's promise is resolved with a value, that value equals
`generatePathSync` for the request's own inputs, so the awaited result agrees
with the synchronous generator whichever strategy served it. -/
theorem async_sync_equivalence (k : NumKernel) :
    (∀ (s : Sys) (now : Nat) (w h e : ℚ), s.worker = false →
      step k s (Event.call false none now (ReqParams.sym w h e)) =
        { s with constructionAttempts := s.constructionAttempts + 1,
                 calls := s.calls ++ [CallOutcome.syncFallback (generatePathSync k w h e)] }) ∧
    (∀ evs : List Event, ∀ r ∈ (run k evs).reqs, ∀ (w h e : ℚ) (pd : String),
      r.params = ReqParams.sym w h e → r.promise = some (Settled.ok (some pd)) →
      pd = generatePathSync k w h e) := by
  constructor
  · intro s now w h e hw
    simp only [step, stepCall, hw]
    rfl
  · intro evs r hr w h e pd hps hpp
    have h := (inv_run k evs).promiseOk r hr pd hpp
    rw [hps] at h
    exact h

/-- C7 witness: the fallback equality evaluated at the fresh state, and a
concrete run in which the worker served the request and the resolved value is
the synchronous generator's output for the same inputs. -/
theorem async_sync_equivalence_witness :
    initSys.worker = false ∧
    (step kDemo initSys (Event.call false none 5 (ReqParams.sym 0 0 2)) =
      { initSys with
          constructionAttempts := initSys.constructionAttempts + 1,
          calls := initSys.calls ++
            [CallOutcome.syncFallback (generatePathSync kDemo 0 0 2)] }) ∧
    ((⟨⟨1, 7⟩, ReqParams.sym 0 0 2,
        some (Settled.ok (some (generatePathSync kDemo 0 0 2))), 1, false, 10000⟩ : Req) ∈
      (run kDemo [Event.call true none 7 (ReqParams.sym 0 0 2), Event.workerRun none,
        Event.deliver]).reqs) ∧
    generatePathSync kDemo 0 0 2 = generatePathSync kDemo 0 0 2 :=
  ⟨rfl,
   (async_sync_equivalence kDemo).1 initSys 5 0 0 2 rfl,
   List.Mem.head _,
   (async_sync_equivalence kDemo).2
     [Event.call true none 7 (ReqParams.sym 0 0 2), Event.workerRun none, Event.deliver]
     ⟨⟨1, 7⟩, ReqParams.sym 0 0 2, some (Settled.ok (some (generatePathSync kDemo 0 0 2))),
       1, false, 10000⟩
     (List.Mem.head _) 0 0 2 (generatePathSync kDemo 0 0 2) rfl rfl⟩

/-- C8.  Uniform-corner equivalence: the per-corner generator with all four
corner exponents equal to `e` takes the documented fallback branch and returns
the very output of the symmetric generator, byte-identical. -/
theorem uniform_corner_equivalence (k : NumKernel) (w h e : ℚ) :
    generatePerCornerPathSync k w h ⟨e, e, e, e⟩ = generatePathSync k w h e := by
  simp [generatePerCornerPathSync, getPerCornerSuperellipsePath, generatePathSync]

/-- C9.  Degenerate safety of the generator: for every rational input the
output is a closed path (it is a move-to followed by segments and an explicit
close); a non-positive width (resp. height) is normalized so that every sample
has `x = 0` (resp. `y = 0`) — zero-area output; a non-positive exponent is
clamped to the safe minimum before any power is taken, so the samples coincide
with those at `MIN_EXPONENT`; and a negative width produces exactly the
samples of width `0`.  Totality of the embedding over exact rationals stands
in for the absence of exceptions and of non-finite coordinates. -/
theorem generator_degenerate_safety (k : NumKernel) (w h e : ℚ) :
    (∃ body, getSuperellipsePath k w h e = "M " ++ body ++ " Z") ∧
    (w ≤ 0 → ∀ p ∈ superellipsePoints k w h e, p.x = 0) ∧
    (h ≤ 0 → ∀ p ∈ superellipsePoints k w h e, p.y = 0) ∧
    (e ≤ 0 → superellipsePoints k w h e = superellipsePoints k w h MIN_EXPONENT) ∧
    (w < 0 → superellipsePoints k w h e = superellipsePoints k 0 h e) := by
  refine ⟨?_, ?_, ?_, ?_, ?_⟩
  · exact ⟨String.intercalate " L " ((superellipsePoints k w h e).map renderPoint), rfl⟩
  · intro hw p hp
    rcases List.mem_map.mp hp with ⟨i, _, rfl⟩
    simp [samplePoint, clampDim, max_eq_right hw]
  · intro hh p hp
    rcases List.mem_map.mp hp with ⟨i, _, rfl⟩
    simp [samplePoint, clampDim, max_eq_right hh]
  · intro he
    have h1 : clampExp e = MIN_EXPONENT :=
      max_eq_right (le_trans he (by norm_num [MIN_EXPONENT]))
    have h2 : clampExp MIN_EXPONENT = MIN_EXPONENT := max_self _
    unfold superellipsePoints
    simp only [h1, h2]
  · intro hw
    have h1 : clampDim w = clampDim 0 := by
      unfold clampDim
      rw [max_eq_right (le_of_lt hw), max_self]
    unfold superellipsePoints
    simp only [h1]

/-- C9 witness: the degenerate guarantees evaluated at width, height and
exponent all `-1`. -/
theorem generator_degenerate_safety_witness :
    ((-1 : ℚ) ≤ 0) ∧
    (∀ p ∈ superellipsePoints kDemo (-1) (-1) (-1), p.x = 0) ∧
    (∀ p ∈ superellipsePoints kDemo (-1) (-1) (-1), p.y = 0) ∧
    (superellipsePoints kDemo (-1) (-1) (-1) =
      superellipsePoints kDemo (-1) (-1) MIN_EXPONENT) ∧
    ((-1 : ℚ) < 0) ∧
    (superellipsePoints kDemo (-1) (-1) (-1) = superellipsePoints kDemo 0 (-1) (-1)) ∧
    (∃ body, getSuperellipsePath kDemo (-1) (-1) (-1) = "M " ++ body ++ " Z") :=
  ⟨by decide,
   (generator_degenerate_safety kDemo (-1) (-1) (-1)).2.1 (by decide),
   (generator_degenerate_safety kDemo (-1) (-1) (-1)).2.2.1 (by decide),
   (generator_degenerate_safety kDemo (-1) (-1) (-1)).2.2.2.1 (by decide),
   by decide,
   (generator_degenerate_safety kDemo (-1) (-1) (-1)).2.2.2.2 (by decide),
   (generator_degenerate_safety kDemo (-1) (-1) (-1)).1⟩

/-- C10.  Any inbound worker message whose `type` is neither
`GENERATE_PATH_SYMMETRIC` nor `GENERATE_PATH_ASYMMETRIC` makes the handler
throw, and the surrounding catch posts back the error-tagged response carrying
the same id and the unknown-type message — the worker neither crashes nor
stays silent. -/
theorem unknown_message_type_error_response (k : NumKernel) (gf : Option String)
    (m : RawMsg) (h1 : m.type ≠ "GENERATE_PATH_SYMMETRIC")
    (h2 : m.type ≠ "GENERATE_PATH_ASYMMETRIC") :
    workerOnMessage k gf m = ⟨m.id, none, some ("Unknown message type: " ++ m.type)⟩ := by
  unfold workerOnMessage
  rw [if_neg h1, if_neg h2]

/-- C10 witness: a concrete malformed message of type `BOGUS` is answered with
the error-tagged response carrying its id. -/
theorem unknown_message_type_error_response_witness :
    ("BOGUS" ≠ "GENERATE_PATH_SYMMETRIC") ∧
    ("BOGUS" ≠ "GENERATE_PATH_ASYMMETRIC") ∧
    workerOnMessage kDemo none ⟨"BOGUS", ⟨9, 9⟩, 0, 0, 0, ⟨0, 0, 0, 0⟩⟩ =
      ⟨⟨9, 9⟩, none, some ("Unknown message type: " ++ "BOGUS")⟩ :=
  ⟨by decide, by decide,
   unknown_message_type_error_response kDemo none ⟨"BOGUS", ⟨9, 9⟩, 0, 0, 0, ⟨0, 0, 0, 0⟩⟩
     (by decide) (by decide)⟩

end Tumsvd
